import Mathlib

/-!
Shallow embedding of the roomy room-reservation engine (`main.go`) and
verification of its specified properties.

Modelling conventions:
* Go `time.Time` values that carry only a time of day (reservation start/end,
  slot times) are embedded as minutes since midnight (`Nat`); `Before`/`After`
  become `<`/`>` on `Nat`.
* Go slices become `List`s, Go `int` becomes `Int` where signedness matters
  (`DeleteReservation`'s index), and fallible Go functions returning
  `(T, error)` become `Except String T` carrying the source's error strings.
* The per-room mutex, persistence (`saveReservations`, `saveUsers`) and all
  Fyne UI code are outside the engine being verified and are dropped; the
  external bcrypt library is abstracted as an explicit hash/verify function
  parameter.
-/

namespace Roomy

/-- Embeds the Go struct `Reservation` (`main.go`): room name, `YYYY-MM-DD`
date string, start/end as minutes since midnight, purpose/leader/student
strings, integer priority, and the soft-delete flag `Active`. -/
structure Reservation where
  RoomName : String
  Date : String
  StartTime : Nat
  EndTime : Nat
  Purpose : String
  Leader : String
  Student : String
  Priority : Int
  Active : Bool
deriving DecidableEq

/-- Embeds the Go struct `Room`: a name and its ordered reservation list.
The `sync.Mutex` and the floor-plan `Position` are not part of the engine. -/
structure Room where
  Name : String
  Reservations : List Reservation
deriving DecidableEq

/-- Embeds `getPriority` (`main.go` lines 75-78): a placeholder that maps
every purpose to priority `0`. -/
def getPriority (_purpose : String) : Int := 0

/-- The overlap test from the loop body of `Room.Reserve` (`main.go` line 87):
`res.Active && res.Date == reservation.Date && reservation.StartTime.Before(res.EndTime)
&& reservation.EndTime.After(res.StartTime)`. -/
def conflictsWith (reservation res : Reservation) : Bool :=
  res.Active && res.Date == reservation.Date &&
    decide (reservation.StartTime < res.EndTime) &&
    decide (reservation.EndTime > res.StartTime)

/-- Embeds `Room.Reserve` (`main.go` lines 81-97): if any existing reservation
conflicts, fail with the source's error string; otherwise append the
reservation with `Active` forced to `true`.  The `saveReservations()` call is
persistence, outside the engine. -/
def Reserve (room : Room) (reservation : Reservation) : Except String Room :=
  if room.Reservations.any (fun res => conflictsWith reservation res) then
    Except.error "time slot already reserved"
  else
    Except.ok { room with
      Reservations := room.Reservations ++ [{ reservation with Active := true }] }

/-- Embeds `Room.DeleteReservation` (`main.go` lines 99-107): when the index
is in range, soft-delete by clearing `Active`; otherwise do nothing. -/
def DeleteReservation (room : Room) (index : Int) : Room :=
  if h : 0 ≤ index ∧ index < (room.Reservations.length : Int) then
    { room with
      Reservations := room.Reservations.set index.toNat
        { room.Reservations.get ⟨index.toNat, by omega⟩ with Active := false } }
  else room

/-- Embeds `checkRoomReservation` (`main.go` lines 627-642) with the slot time
already parsed to minutes since midnight (the Go function parses the
"3:04 PM" label first and returns `false` on parse failure): the slot is
occupied iff some active reservation of that date starts exactly at the slot
or strictly contains it. -/
def checkRoomReservation (room : Room) (date : String) (slotTime : Nat) : Bool :=
  room.Reservations.any fun res =>
    res.Active && res.Date == date &&
      (slotTime == res.StartTime ||
        (decide (res.StartTime < slotTime) && decide (slotTime < res.EndTime)))

/-- The reservations a listing of the room would show: exactly the
`Active` ones (the grid view and `checkRoomReservation` filter on
`res.Active`). -/
def activeReservations (room : Room) : List Reservation :=
  room.Reservations.filter (fun res => res.Active)

/-- The loop of `generateTimeSlots` (`main.go` lines 617-625) over minutes
since midnight: emit `t` while `t ≤ endMinutes`, stepping by `interval`
(the Go loop condition is `t.Before(end) || t.Equal(end)`).  The Go loop
diverges for `interval = 0`; the guard `0 < interval` makes the embedding
total without changing any terminating run. -/
def slotsAux (interval endMinutes : Nat) (t : Nat) : List Nat :=
  if _h : 0 < interval ∧ t ≤ endMinutes then
    t :: slotsAux interval endMinutes (t + interval)
  else
    []
termination_by endMinutes + 1 - t
decreasing_by omega

/-- The underlying slot times of `generateTimeSlots`: from 8 AM (480 minutes)
to 11 PM (1380 minutes). -/
def slotTimes (interval : Nat) : List Nat :=
  slotsAux interval 1380 480

/-- Go's `t.Format("3:04 PM")` for a time of day given in minutes since
midnight. -/
def format12Hour (t : Nat) : String :=
  let hour := t / 60
  let minute := t % 60
  let h12 := if hour % 12 == 0 then 12 else hour % 12
  let suffix := if hour < 12 then "AM" else "PM"
  let mstr := if minute < 10 then "0" ++ toString minute else toString minute
  toString h12 ++ ":" ++ mstr ++ " " ++ suffix

/-- Embeds `generateTimeSlots` (`main.go` lines 617-625): the formatted labels
of the slot times. -/
def generateTimeSlots (interval : Nat) : List String :=
  (slotTimes interval).map format12Hour

/-- Embeds the Go struct `User`: username, password hash (bcrypt output
modelled as an opaque string) and role. -/
structure User where
  Username : String
  PasswordHash : String
  Role : String
deriving DecidableEq

/-- Embeds `createUser` (`main.go` lines 119-141).  `hashFn` stands for the
external `bcrypt.GenerateFromPassword` (which cannot fail at
`bcrypt.DefaultCost`); on success the new user is appended, mirroring
`users = append(users, ...)`.  `saveUsers()` is persistence, outside the
engine. -/
def createUser (hashFn : String → String) (users : List User)
    (username password role : String) : Except String (List User) :=
  if password.length < 8 then
    Except.error "password must be at least 8 characters long"
  else if users.any (fun user => user.Username == username) then
    Except.error "username already exists"
  else
    Except.ok (users ++ [{ Username := username, PasswordHash := hashFn password,
                           Role := role }])

/-- Embeds `authenticateUser` (`main.go` lines 143-154).  `verify` stands for
the external `bcrypt.CompareHashAndPassword` succeeding; the loop returns on
the first username match. -/
def authenticateUser (verify : String → String → Bool) :
    List User → String → String → Except String User
  | [], _, _ => Except.error "user not found"
  | user :: rest, username, password =>
    if user.Username == username then
      if verify user.PasswordHash password then Except.ok user
      else Except.error "incorrect password"
    else
      authenticateUser verify rest username password

/-- Embeds the Go struct `ReservationCommand` (`main.go` lines 208-212)
minus the room pointer (the room is threaded explicitly): the reservation
payload and the index recorded for undo.  Go zero-initialises `index` to `0`
when the struct literal omits it. -/
structure ReservationCommand where
  reservation : Reservation
  index : Int
deriving DecidableEq

/-- Embeds `ReservationCommand.Execute` (`main.go` lines 214-217): call
`Reserve` (its error is discarded), then record
`index = len(room.Reservations) - 1` from the post-call list. -/
def commandExecute (room : Room) (c : ReservationCommand) :
    Room × ReservationCommand :=
  let room2 := match Reserve room c.reservation with
    | Except.ok r2 => r2
    | Except.error _ => room
  (room2, { c with index := (room2.Reservations.length : Int) - 1 })

/-- Embeds `ReservationCommand.Undo` (`main.go` lines 219-221):
`DeleteReservation` at the recorded index. -/
def commandUndo (room : Room) (c : ReservationCommand) : Room :=
  DeleteReservation room c.index

/-- The mutable state touched by the undo/redo machinery: the (single) room
being booked plus the process-wide `undoStack` and `redoStack`
(`main.go` lines 204-205).  The top of each stack is the last list element. -/
structure AppState where
  room : Room
  undoStack : List ReservationCommand
  redoStack : List ReservationCommand
deriving DecidableEq

/-- Embeds the reservation-confirmation path of `openReservationForm`
(`main.go` lines 730-748): build `cmd := &ReservationCommand{reservation,
room}` (leaving `index` at Go's zero value `0`), call `Reserve` directly
(not `cmd.Execute()`); on success push `cmd` onto `undoStack` and clear
`redoStack`, on failure change nothing. -/
def reserveViaForm (s : AppState) (reservation : Reservation) : AppState :=
  match Reserve s.room reservation with
  | Except.error _ => s
  | Except.ok room2 =>
    { room := room2,
      undoStack := s.undoStack ++ [{ reservation := reservation, index := 0 }],
      redoStack := [] }

/-- Embeds `undo` (`main.go` lines 774-782): no-op on an empty stack, else
pop the top command, run its `Undo`, push it onto `redoStack`. -/
def undoStep (s : AppState) : AppState :=
  match s.undoStack.getLast? with
  | none => s
  | some cmd =>
    { room := commandUndo s.room cmd,
      undoStack := s.undoStack.dropLast,
      redoStack := s.redoStack ++ [cmd] }

/-- Embeds `redo` (`main.go` lines 784-792): no-op on an empty stack, else
pop the top command, run its `Execute` (which updates the command's `index`),
push it back onto `undoStack`. -/
def redoStep (s : AppState) : AppState :=
  match s.redoStack.getLast? with
  | none => s
  | some cmd =>
    let p := commandExecute s.room cmd
    { room := p.1,
      undoStack := s.undoStack ++ [p.2],
      redoStack := s.redoStack.dropLast }

/-- Half-open interval overlap of two reservations, `[s1,e1)` against
`[s2,e2)`: `s1 < e2 AND s2 < e1`. -/
def Overlaps (a b : Reservation) : Prop :=
  a.StartTime < b.EndTime ∧ b.StartTime < a.EndTime

instance (a b : Reservation) : Decidable (Overlaps a b) := by
  unfold Overlaps; infer_instance

/-- The conflict-freedom invariant: no two distinct positions of the list
hold active reservations of the same date whose half-open intervals
overlap. -/
def NoOverlap (l : List Reservation) : Prop :=
  ∀ i j (hi : i < l.length) (hj : j < l.length), i ≠ j →
    (l.get ⟨i, hi⟩).Active = true → (l.get ⟨j, hj⟩).Active = true →
    (l.get ⟨i, hi⟩).Date = (l.get ⟨j, hj⟩).Date →
    ¬ Overlaps (l.get ⟨i, hi⟩) (l.get ⟨j, hj⟩)

/-- An operation on a room: a `Reserve` attempt or a `DeleteReservation`. -/
inductive Op where
  | reserve (r : Reservation)
  | delete (i : Int)

/-- Run one operation against a room, keeping the room unchanged when
`Reserve` fails (the Go caller keeps the old state and shows the error). -/
def applyOp (room : Room) : Op → Room
  | Op.reserve r =>
    match Reserve room r with
    | Except.ok room2 => room2
    | Except.error _ => room
  | Op.delete i => DeleteReservation room i

/-- Run a sequence of operations starting from a room with an empty
reservation list. -/
def runOps (name : String) (ops : List Op) : Room :=
  ops.foldl applyOp { Name := name, Reservations := [] }

/-! ### Concrete values used by witnesses and counterexamples -/

/-- The spec's example reservation: Study Room 1, 2025-01-10,
09:00-10:00 (540-600 minutes), priority 3, active. -/
def resNine : Reservation :=
  { RoomName := "Study Room 1", Date := "2025-01-10", StartTime := 540,
    EndTime := 600, Purpose := "Meeting", Leader := "alice", Student := "",
    Priority := 3, Active := true }

/-- The spec's override candidate: 09:30-10:30 (570-630 minutes),
priority 2. -/
def candTwo : Reservation :=
  { RoomName := "Study Room 1", Date := "2025-01-10", StartTime := 570,
    EndTime := 630, Purpose := "Meeting", Leader := "bob", Student := "",
    Priority := 2, Active := false }

/-- The spec's reject candidate: 09:30-10:30 (570-630 minutes),
priority 5. -/
def candFive : Reservation :=
  { RoomName := "Study Room 1", Date := "2025-01-10", StartTime := 570,
    EndTime := 630, Purpose := "Study Session", Leader := "carol",
    Student := "", Priority := 5, Active := false }

/-- A reservation touching `resNine` at its end point: 10:00-11:00. -/
def resTouch : Reservation :=
  { RoomName := "Study Room 1", Date := "2025-01-10", StartTime := 600,
    EndTime := 660, Purpose := "Meeting", Leader := "dave", Student := "",
    Priority := 3, Active := true }

/-- A room holding just the spec's example reservation. -/
def exRoom : Room := { Name := "Study Room 1", Reservations := [resNine] }

/-- A user store holding one known user. -/
def exUsers : List User :=
  [{ Username := "alice", PasswordHash := "H", Role := "User" }]

/-! ### Helper lemmas -/

/-- If some stored reservation is active, same-date and half-open-overlapping
with the candidate, `Reserve` fails with the source's error string and the
room is unchanged. -/
lemma reserve_rejects_of_conflict (room : Room) (cand res : Reservation)
    (hmem : res ∈ room.Reservations) (hact : res.Active = true)
    (hdate : res.Date = cand.Date)
    (hs : cand.StartTime < res.EndTime) (he : res.StartTime < cand.EndTime) :
    Reserve room cand = Except.error "time slot already reserved" ∧
    applyOp room (Op.reserve cand) = room := by
  have hconf : room.Reservations.any (fun r0 => conflictsWith cand r0) = true := by
    rw [List.any_eq_true]
    exact ⟨res, hmem, by simp [conflictsWith, hact, hdate, hs, he]⟩
  constructor
  · unfold Reserve
    simp [hconf]
  · unfold applyOp Reserve
    simp [hconf]

/-- Reading an index on the left of an append with a singleton. -/
lemma get_append_sing_left (l : List Reservation) (x : Reservation) (i : Nat)
    (hi : i < l.length) (hi2 : i < (l ++ [x]).length) :
    (l ++ [x]).get ⟨i, hi2⟩ = l.get ⟨i, hi⟩ := by
  simp [List.get_eq_getElem, List.getElem_append_left hi]

/-- Reading the appended element of an append with a singleton. -/
lemma get_append_sing_right (l : List Reservation) (x : Reservation)
    (hi2 : l.length < (l ++ [x]).length) :
    (l ++ [x]).get ⟨l.length, hi2⟩ = x := by
  simp [List.get_eq_getElem]

/-- Appending a reservation that the `Reserve` loop found conflict-free
preserves the no-overlap invariant. -/
lemma noOverlap_append (l : List Reservation) (r : Reservation)
    (h : NoOverlap l)
    (hc : ∀ res ∈ l, conflictsWith r res = false) :
    NoOverlap (l ++ [{ r with Active := true }]) := by
  intro i j hi hj hij hacti hactj hdate hov
  have hlen : (l ++ [{ r with Active := true }]).length = l.length + 1 := by simp
  rw [hlen] at hi hj
  rcases Nat.lt_or_ge i l.length with hi2 | hi2 <;>
    rcases Nat.lt_or_ge j l.length with hj2 | hj2
  · rw [get_append_sing_left l _ i hi2] at hacti hdate hov
    rw [get_append_sing_left l _ j hj2] at hactj hdate hov
    exact h i j hi2 hj2 hij hacti hactj hdate hov
  · have hj3 : j = l.length := by omega
    subst hj3
    rw [get_append_sing_left l _ i hi2] at hacti hdate hov
    rw [get_append_sing_right] at hdate hov
    unfold Overlaps at hov
    have hd : (l.get ⟨i, hi2⟩).Date = r.Date := hdate
    have hconf : conflictsWith r (l.get ⟨i, hi2⟩) = true := by
      simp only [conflictsWith, Bool.and_eq_true, decide_eq_true_iff, beq_iff_eq]
      exact ⟨⟨⟨hacti, hd⟩, hov.2⟩, hov.1⟩
    rw [hc (l.get ⟨i, hi2⟩) (List.get_mem l i hi2)] at hconf
    exact Bool.noConfusion hconf
  · have hi3 : i = l.length := by omega
    subst hi3
    rw [get_append_sing_left l _ j hj2] at hactj hdate hov
    rw [get_append_sing_right] at hdate hov
    unfold Overlaps at hov
    have hd : (l.get ⟨j, hj2⟩).Date = r.Date := hdate.symm
    have hconf : conflictsWith r (l.get ⟨j, hj2⟩) = true := by
      simp only [conflictsWith, Bool.and_eq_true, decide_eq_true_iff, beq_iff_eq]
      exact ⟨⟨⟨hactj, hd⟩, hov.1⟩, hov.2⟩
    rw [hc (l.get ⟨j, hj2⟩) (List.get_mem l j hj2)] at hconf
    exact Bool.noConfusion hconf
  · omega

/-- Replacing any position with an inactive reservation preserves the
no-overlap invariant. -/
lemma noOverlap_set_inactive (l : List Reservation) (k : Nat) (x : Reservation)
    (h : NoOverlap l) (hx : x.Active = false) :
    NoOverlap (l.set k x) := by
  intro i j hi hj hij hacti hactj hdate hov
  rw [List.length_set] at hi hj
  by_cases hik : k = i
  · subst hik
    rw [show (l.set k x).get ⟨k, by simpa using hi⟩ = x by
        simp [List.get_eq_getElem, List.getElem_set]] at hacti
    rw [hacti] at hx
    exact Bool.noConfusion hx
  · by_cases hjk : k = j
    · subst hjk
      rw [show (l.set k x).get ⟨k, by simpa using hj⟩ = x by
          simp [List.get_eq_getElem, List.getElem_set]] at hactj
      rw [hactj] at hx
      exact Bool.noConfusion hx
    · rw [show (l.set k x).get ⟨i, by simpa using hi⟩ = l.get ⟨i, hi⟩ by
          simp [List.get_eq_getElem, List.getElem_set_ne hik]] at hacti hdate hov
      rw [show (l.set k x).get ⟨j, by simpa using hj⟩ = l.get ⟨j, hj⟩ by
          simp [List.get_eq_getElem, List.getElem_set_ne hjk]] at hactj hdate hov
      exact h i j hi hj hij hacti hactj hdate hov

/-- `DeleteReservation` preserves the no-overlap invariant. -/
lemma noOverlap_delete (room : Room) (idx : Int)
    (h : NoOverlap room.Reservations) :
    NoOverlap ((DeleteReservation room idx).Reservations) := by
  unfold DeleteReservation
  split
  · exact noOverlap_set_inactive _ _ _ h rfl
  · exact h

/-- Every single operation preserves the no-overlap invariant. -/
lemma noOverlap_applyOp (room : Room) (op : Op)
    (h : NoOverlap room.Reservations) :
    NoOverlap ((applyOp room op).Reservations) := by
  cases op with
  | delete i => exact noOverlap_delete room i h
  | reserve r =>
    show NoOverlap ((match Reserve room r with
      | Except.ok room2 => room2
      | Except.error _ => room).Reservations)
    by_cases hc : room.Reservations.any (fun res => conflictsWith r res) = true
    · rw [show Reserve room r = Except.error "time slot already reserved" from by
        rw [Reserve, if_pos hc]]
      exact h
    · rw [show Reserve room r = Except.ok { room with
          Reservations := room.Reservations ++ [{ r with Active := true }] } from by
        rw [Reserve, if_neg hc]]
      have hc2 : room.Reservations.any (fun res => conflictsWith r res) = false := by
        simpa using hc
      exact noOverlap_append room.Reservations r h fun res hres => by
        simpa using List.any_eq_false.1 hc2 res hres

/-- Folding any operation sequence preserves the no-overlap invariant. -/
lemma noOverlap_foldl (ops : List Op) (room : Room)
    (h : NoOverlap room.Reservations) :
    NoOverlap ((ops.foldl applyOp room).Reservations) := by
  induction ops generalizing room with
  | nil => exact h
  | cons op rest ih => exact ih (applyOp room op) (noOverlap_applyOp room op h)

/-! ### Claims -/

/-- C4: the conflict check of `Reserve` fires exactly on active same-date
reservations whose half-open intervals satisfy `s1 < e2 AND s2 < e1`; the
interval condition is symmetric in the two intervals, and intervals that
merely touch at an endpoint never conflict. -/
theorem C4_overlap_halfopen (a b : Reservation) :
    (conflictsWith a b = true ↔
      b.Active = true ∧ b.Date = a.Date ∧
        a.StartTime < b.EndTime ∧ b.StartTime < a.EndTime) ∧
    ((a.StartTime < b.EndTime ∧ b.StartTime < a.EndTime) ↔
      (b.StartTime < a.EndTime ∧ a.StartTime < b.EndTime)) ∧
    (a.EndTime = b.StartTime → conflictsWith a b = false) ∧
    (b.EndTime = a.StartTime → conflictsWith a b = false) := by
  refine ⟨?_, ?_, ?_, ?_⟩
  · simp [conflictsWith, and_assoc]
  · exact ⟨fun h => ⟨h.2, h.1⟩, fun h => ⟨h.2, h.1⟩⟩
  · intro h
    simp [conflictsWith, h]
  · intro h
    simp [conflictsWith, h]

/-- Witness for C4 at concrete reservations: `resTouch` starts exactly where
`resNine` ends, so neither conflicts with the other. -/
theorem C4_overlap_halfopen_witness :
    conflictsWith resTouch resNine = false ∧
    conflictsWith resNine resTouch = false :=
  ⟨(C4_overlap_halfopen resTouch resNine).2.2.2 rfl,
   (C4_overlap_halfopen resNine resTouch).2.2.1 rfl⟩

set_option maxRecDepth 2000 in
/-- C8: hourly time slots for the 08:00-23:00 window are exactly 16 labels
whose underlying times run from 08:00 (480 minutes) to 23:00 (1380 minutes)
inclusive, strictly increasing at 60-minute spacing. -/
theorem C8_generate_slots :
    (generateTimeSlots 60).length = 16 ∧
    slotTimes 60 = [480, 540, 600, 660, 720, 780, 840, 900, 960, 1020,
      1080, 1140, 1200, 1260, 1320, 1380] ∧
    List.Chain' (fun a b => a + 60 = b) (slotTimes 60) := by
  have h : slotTimes 60 = [480, 540, 600, 660, 720, 780, 840, 900, 960, 1020,
      1080, 1140, 1200, 1260, 1320, 1380] := by
    unfold slotTimes
    simp [slotsAux]
  refine ⟨?_, h, ?_⟩
  · simp [generateTimeSlots, h]
  · rw [h]
    norm_num [List.chain'_cons]

/-- C9: `DeleteReservation` with a negative or too-large index is a total
no-op (the Go guard `index >= 0 && index < len` fails and nothing happens;
totality of the embedding reflects that no panic is possible). -/
theorem C9_delete_out_of_range (room : Room) (index : Int)
    (h : index < 0 ∨ (room.Reservations.length : Int) ≤ index) :
    DeleteReservation room index = room := by
  unfold DeleteReservation
  have hc : ¬(0 ≤ index ∧ index < (room.Reservations.length : Int)) := by omega
  simp [hc]

/-- Witness for C9: deleting index 5 from the one-reservation `exRoom`, and
index -1 from it, both leave the room unchanged. -/
theorem C9_delete_out_of_range_witness :
    DeleteReservation exRoom 5 = exRoom ∧
    DeleteReservation exRoom (-1) = exRoom :=
  ⟨C9_delete_out_of_range exRoom 5 (by right; decide),
   C9_delete_out_of_range exRoom (-1) (by left; decide)⟩

/-- C3: when some active same-date reservation overlaps the candidate's
half-open interval and has equal-or-better (numerically not larger) priority,
`Reserve` fails with the slot-unavailable error and the room's reservation
list is unchanged. -/
theorem C3_reject_equal_or_better (room : Room) (cand res : Reservation)
    (hmem : res ∈ room.Reservations) (hact : res.Active = true)
    (hdate : res.Date = cand.Date)
    (hov : cand.StartTime < res.EndTime ∧ res.StartTime < cand.EndTime)
    (_hpri : res.Priority ≤ cand.Priority) :
    Reserve room cand = Except.error "time slot already reserved" ∧
    applyOp room (Op.reserve cand) = room :=
  reserve_rejects_of_conflict room cand res hmem hact hdate hov.1 hov.2

/-- Witness for C3 at the spec's example: priority-5 candidate `candFive`
against the active priority-3 reservation `resNine`. -/
theorem C3_reject_equal_or_better_witness :
    Reserve exRoom candFive = Except.error "time slot already reserved" ∧
    applyOp exRoom (Op.reserve candFive) = exRoom :=
  C3_reject_equal_or_better exRoom candFive resNine (by decide) (by decide)
    (by decide) (by decide) (by decide)

/-- C2 fails on the code: at the spec's own example (active priority-3
reservation 09:00-10:00, candidate 09:30-10:30 with strictly better
priority 2), `Reserve` rejects the candidate, the room is unchanged, and the
supposedly displaced reservation is still present and active — no override
happens. -/
theorem C2_counterexample :
    candTwo.Priority < resNine.Priority ∧
    Reserve exRoom candTwo = Except.error "time slot already reserved" ∧
    applyOp exRoom (Op.reserve candTwo) = exRoom ∧
    exRoom.Reservations = [resNine] ∧ resNine.Active = true := by
  refine ⟨by decide, ?_, ?_, rfl, rfl⟩
  · exact (reserve_rejects_of_conflict exRoom candTwo resNine (by decide)
      (by decide) (by decide) (by decide) (by decide)).1
  · exact (reserve_rejects_of_conflict exRoom candTwo resNine (by decide)
      (by decide) (by decide) (by decide) (by decide)).2

/-- C2 amended: `Reserve` implements no priority override.  Even when the
candidate's priority is strictly better (numerically lower), any overlap with
an active same-date reservation makes `Reserve` fail and leaves the room
unchanged; `getPriority` maps every purpose to 0, so purposes can never
produce distinct priorities. -/
theorem C2_no_override (room : Room) (cand res : Reservation)
    (hmem : res ∈ room.Reservations) (hact : res.Active = true)
    (hdate : res.Date = cand.Date)
    (hov : cand.StartTime < res.EndTime ∧ res.StartTime < cand.EndTime)
    (_hpri : cand.Priority < res.Priority) :
    Reserve room cand = Except.error "time slot already reserved" ∧
    applyOp room (Op.reserve cand) = room ∧
    getPriority cand.Purpose = 0 :=
  ⟨(reserve_rejects_of_conflict room cand res hmem hact hdate hov.1 hov.2).1,
   (reserve_rejects_of_conflict room cand res hmem hact hdate hov.1 hov.2).2,
   rfl⟩

/-- Witness for the amended C2 at the spec's example: the strictly better
priority-2 candidate is still rejected. -/
theorem C2_no_override_witness :
    Reserve exRoom candTwo = Except.error "time slot already reserved" ∧
    applyOp exRoom (Op.reserve candTwo) = exRoom ∧
    getPriority candTwo.Purpose = 0 :=
  C2_no_override exRoom candTwo resNine (by decide) (by decide) (by decide)
    (by decide) (by decide)

/-- C7 fails on the code: on the concrete store `exUsers` (which knows only
"alice"), an unknown username fails with "user not found" while a known
username with a failing password check fails with "incorrect password" — the
two failure indications differ, leaking which field was wrong. -/
theorem C7_counterexample :
    authenticateUser (fun _ _ => false) exUsers "bob" "pw" =
      Except.error "user not found" ∧
    authenticateUser (fun _ _ => false) exUsers "alice" "pw" =
      Except.error "incorrect password" ∧
    ("user not found" : String) ≠ "incorrect password" :=
  ⟨rfl, rfl, by decide⟩

/-- C7 amended: authentication failure does leak which field was wrong — an
unknown username always yields the error "user not found", while a known
username whose password check fails yields the distinct error
"incorrect password".  Neither outcome produces a user list:
`authenticateUser` is a pure read of the store. -/
theorem C7_distinct_failures (verify : String → String → Bool)
    (users : List User) (username password : String) :
    ((∀ u ∈ users, u.Username ≠ username) →
      authenticateUser verify users username password =
        Except.error "user not found") ∧
    (∀ u, users.find? (fun v => v.Username == username) = some u →
      verify u.PasswordHash password = false →
      authenticateUser verify users username password =
        Except.error "incorrect password") := by
  induction users with
  | nil =>
    refine ⟨fun _ => rfl, fun u hu => ?_⟩
    simp [List.find?] at hu
  | cons head rest ih =>
    constructor
    · intro hall
      have hhead : ¬(head.Username == username) = true := by
        simpa using hall head (by simp)
      rw [authenticateUser, if_neg hhead]
      exact ih.1 fun u hu => hall u (List.mem_cons_of_mem head hu)
    · intro u hu hverify
      by_cases hhead : (head.Username == username) = true
      · have hfind : List.find? (fun v => v.Username == username) (head :: rest)
            = some head := List.find?_cons_of_pos rest hhead
        rw [hfind] at hu
        injection hu with hu
        subst hu
        rw [authenticateUser, if_pos hhead, if_neg (by simp [hverify])]
      · have hfind : List.find? (fun v => v.Username == username) (head :: rest)
            = List.find? (fun v => v.Username == username) rest :=
          List.find?_cons_of_neg rest hhead
        rw [hfind] at hu
        rw [authenticateUser, if_neg hhead]
        exact ih.2 u hu hverify

/-- Witness for the amended C7 applying both failure branches on `exUsers`. -/
theorem C7_distinct_failures_witness :
    authenticateUser (fun _ _ => false) exUsers "bob" "pw" =
      Except.error "user not found" ∧
    authenticateUser (fun _ _ => false) exUsers "alice" "pw" =
      Except.error "incorrect password" :=
  ⟨(C7_distinct_failures (fun _ _ => false) exUsers "bob" "pw").1 (by decide),
   (C7_distinct_failures (fun _ _ => false) exUsers "alice" "pw").2
     { Username := "alice", PasswordHash := "H", Role := "User" }
     (by decide) rfl⟩

/-- C10: `createUser` fails without touching the store when the password has
fewer than 8 characters or the username already exists, and otherwise
appends exactly one user with the given username and role (and the hash of
the given password). -/
theorem C10_createUser (hashFn : String → String) (users : List User)
    (username password role : String) :
    (password.length < 8 →
      createUser hashFn users username password role =
        Except.error "password must be at least 8 characters long") ∧
    (8 ≤ password.length → (∃ u ∈ users, u.Username = username) →
      createUser hashFn users username password role =
        Except.error "username already exists") ∧
    (8 ≤ password.length → (∀ u ∈ users, u.Username ≠ username) →
      createUser hashFn users username password role =
        Except.ok (users ++ [⟨username, hashFn password, role⟩])) := by
  refine ⟨?_, ?_, ?_⟩
  · intro h
    simp [createUser, h]
  · rintro h8 ⟨u, hu, hname⟩
    have hdup : users.any (fun user => user.Username == username) = true :=
      List.any_eq_true.2 ⟨u, hu, by simp [hname]⟩
    simp [createUser, Nat.not_lt.2 h8, hdup]
  · intro h8 hall
    have hdup : users.any (fun user => user.Username == username) = false := by
      rw [List.any_eq_false]
      intro u hu
      simpa using hall u hu
    simp [createUser, Nat.not_lt.2 h8, hdup]

/-- Witness for C10: a short password is rejected, a duplicate username is
rejected, and a fresh registration appends exactly the new user. -/
theorem C10_createUser_witness :
    createUser (fun s => s) exUsers "carol" "pass" "User" =
      Except.error "password must be at least 8 characters long" ∧
    createUser (fun s => s) exUsers "alice" "password1" "User" =
      Except.error "username already exists" ∧
    createUser (fun s => s) exUsers "carol" "password1" "Admin" =
      Except.ok (exUsers ++ [⟨"carol", "password1", "Admin"⟩]) :=
  ⟨(C10_createUser (fun s => s) exUsers "carol" "pass" "User").1 (by decide),
   (C10_createUser (fun s => s) exUsers "alice" "password1" "User").2.1
     (by decide)
     ⟨⟨"alice", "H", "User"⟩, by decide, rfl⟩,
   (C10_createUser (fun s => s) exUsers "carol" "password1" "Admin").2.2
     (by decide) (by decide)⟩

/-- C1: starting from an empty reservation list, after any sequence of
`Reserve` and `DeleteReservation` operations no two active reservations of
the room on the same date have overlapping half-open intervals. -/
theorem C1_no_overlap_invariant (name : String) (ops : List Op) :
    NoOverlap ((runOps name ops).Reservations) := by
  apply noOverlap_foldl
  intro i j hi
  simp at hi

/-- C6: soft delete at an in-range index of an active reservation leaves the
stored sequence's length unchanged, marks exactly that entry inactive (so it
leaves the active listing), and — given the spec's data-model invariants that
active reservations are well-formed (`startTime < endTime`) and pairwise
non-overlapping — every slot-occupancy query inside the deleted
reservation's interval on its date now answers `false`. -/
theorem C6_soft_delete_frame (room : Room) (i : Nat)
    (hi : i < room.Reservations.length)
    (hact : (room.Reservations.get ⟨i, hi⟩).Active = true)
    (hwf : ∀ res ∈ room.Reservations, res.Active = true →
      res.StartTime < res.EndTime)
    (hinv : NoOverlap room.Reservations) :
    ((DeleteReservation room (i : Int)).Reservations).length
        = room.Reservations.length ∧
    (((DeleteReservation room (i : Int)).Reservations).get? i).map
        (fun res => res.Active) = some false ∧
    (∀ t, (room.Reservations.get ⟨i, hi⟩).StartTime ≤ t →
      t < (room.Reservations.get ⟨i, hi⟩).EndTime →
      checkRoomReservation (DeleteReservation room (i : Int))
        (room.Reservations.get ⟨i, hi⟩).Date t = false) := by
  have hcond : 0 ≤ (i : Int) ∧ (i : Int) < (room.Reservations.length : Int) := by
    omega
  have hdel : (DeleteReservation room (i : Int)).Reservations
      = room.Reservations.set i
          { room.Reservations.get ⟨i, hi⟩ with Active := false } := by
    unfold DeleteReservation
    rw [dif_pos hcond]
    simp
  refine ⟨?_, ?_, ?_⟩
  · rw [hdel, List.length_set]
  · rw [hdel]
    simp [List.get?_eq_getElem?, List.getElem?_set, hi]
  · intro t hts hte
    unfold checkRoomReservation
    rw [hdel, List.any_eq_false]
    intro res hres
    rw [Bool.not_eq_true]
    rcases List.mem_iff_get.1 hres with ⟨⟨j, hj⟩, hresj⟩
    rw [List.length_set] at hj
    by_cases hji : j = i
    · subst hji
      have : res = { room.Reservations.get ⟨j, hi⟩ with Active := false } := by
        rw [← hresj]
        simp [List.get_eq_getElem, List.getElem_set]
      rw [this]
      simp
    · have hresval : res = room.Reservations.get ⟨j, hj⟩ := by
        rw [← hresj]
        simp [List.get_eq_getElem, List.getElem_set_ne (fun h => hji h.symm)]
      by_contra hpred
      rw [Bool.not_eq_false] at hpred
      simp only [Bool.and_eq_true, Bool.or_eq_true, decide_eq_true_iff,
        beq_iff_eq] at hpred
      obtain ⟨⟨hresact, hresdate⟩, hcover⟩ := hpred
      have hresw : res.StartTime < res.EndTime :=
        hwf res (hresval ▸ List.get_mem _ j hj) hresact
      have hcov2 : res.StartTime ≤ t ∧ t < res.EndTime := by
        rcases hcover with hcover | hcover
        · have ht : t = res.StartTime := by simpa using hcover
          omega
        · omega
      have hnov := hinv i j hi hj (fun h => hji h.symm) hact
        (hresval ▸ hresact) (by rw [← hresval, hresdate])
      rw [← hresval] at hnov
      exact hnov ⟨by omega, by omega⟩

/-- Witness for C6 on `exRoom`: deleting its only (active) reservation keeps
length 1, marks it inactive, and frees the 09:30 slot on the date
2025-01-10. -/
theorem C6_soft_delete_frame_witness :
    ((DeleteReservation exRoom ((0 : Nat) : Int)).Reservations).length = 1 ∧
    checkRoomReservation (DeleteReservation exRoom ((0 : Nat) : Int))
      "2025-01-10" 570 = false := by
  have h := C6_soft_delete_frame exRoom 0 (by decide) (by decide)
    (by intro res hres hres2; fin_cases hres; decide)
    (by intro i j hi hj hij; simp [exRoom] at hi hj; omega)
  exact ⟨h.1, h.2.2 570 (by decide) (by decide)⟩

/-- The state the reservation form starts from: a room with an empty
reservation list and empty undo/redo stacks. -/
def formState (name : String) : AppState :=
  { room := { Name := name, Reservations := [] },
    undoStack := [], redoStack := [] }

/-- C5 fails on the code: on an initially empty room, a successful reserve
(recorded on the undo stack by the form) followed by `undo` does not restore
the room's reservation list by value — the appended reservation stays in the
list as a soft-deleted entry — and a subsequent `redo` does not restore the
post-reserve list by value either, since it appends a second copy. -/
theorem C5_counterexample :
    (undoStep (reserveViaForm (formState "Study Room 1") resNine)).room.Reservations
        ≠ (formState "Study Room 1").room.Reservations ∧
    (redoStep (undoStep (reserveViaForm (formState "Study Room 1")
        resNine))).room.Reservations
      ≠ (reserveViaForm (formState "Study Room 1") resNine).room.Reservations := by
  decide

/-- C5 amended: on an initially empty room, reserve-then-undo restores the
room's *active-reservation listing* (not the stored list by value) to its
pre-reserve state — the stored list keeps the soft-deleted entry, length 1 —
and `redo` thereafter restores the active-reservation listing of the
post-reserve state. -/
theorem C5_undo_redo_active_view (name : String) (r : Reservation) :
    activeReservations (undoStep (reserveViaForm (formState name) r)).room
        = activeReservations (formState name).room ∧
    (undoStep (reserveViaForm (formState name) r)).room.Reservations.length
        = 1 ∧
    activeReservations
        (redoStep (undoStep (reserveViaForm (formState name) r))).room
      = activeReservations (reserveViaForm (formState name) r).room := by
  have h1 : reserveViaForm (formState name) r =
      { room := { Name := name, Reservations := [{ r with Active := true }] },
        undoStack := [{ reservation := r, index := 0 }], redoStack := [] } := by
    simp [reserveViaForm, formState, Reserve]
  have h2 : undoStep (reserveViaForm (formState name) r) =
      { room := { Name := name, Reservations := [{ r with Active := false }] },
        undoStack := [], redoStack := [{ reservation := r, index := 0 }] } := by
    rw [h1]
    simp [undoStep, commandUndo, DeleteReservation]
  have h3 : redoStep (undoStep (reserveViaForm (formState name) r)) =
      { room := { Name := name,
                  Reservations := [{ r with Active := false },
                                   { r with Active := true }] },
        undoStack := [{ reservation := r, index := 1 }], redoStack := [] } := by
    rw [h2]
    simp [redoStep, commandExecute, Reserve, conflictsWith]
  rw [h3, h2, h1]
  simp [activeReservations, formState]

end Roomy
